import Mathlib



/-!
Verification of the ranking & selection core of the ai-tab-navigator
browser extension (src/popup.js).

The JavaScript source is shallowly embedded below: strings are Lean
`String`s, JS numbers that only ever hold non-negative integers are `Nat`,
model-provided relevance scores (arbitrary JSON numbers) are `Rat`,
fallible external collaborators (the on-device language model, page-text
extraction) are oracle parameters.  Each definition carries a comment
naming the source function and lines it embeds.
-/

/-! ### Basic character/string utilities

JS string primitives used by popup.js (`toLowerCase`, `includes`, `trim`,
`split(/\s+/)`, `slice`) modelled over `List Char` / `String`.  Only the
ASCII fragment of `toLowerCase` is modelled; every string constant in the
source that these functions are applied to is ASCII. -/

/-- The apostrophe character, written via its code point. -/
def squote : Char := Char.ofNat 39

/-- Whitespace test matching the JS `\s` class (and `trim`) on the ASCII
range: space, tab, LF, CR, VT, FF. -/
def isWsChar (c : Char) : Bool :=
  c == ' ' || c == '\t' || c == '\n' || c == '\r' || c == Char.ofNat 11 || c == Char.ofNat 12

/-- ASCII fragment of JS `String.prototype.toLowerCase`, per character. -/
def lowerChar (c : Char) : Char :=
  if h : 65 ≤ c.toNat ∧ c.toNat ≤ 90 then
    Char.ofNatAux (c.toNat + 32) (by unfold Nat.isValidChar; omega)
  else c

/-- `toLowerCase` on a whole string. -/
def toLowerStr (s : String) : String := String.mk (s.data.map lowerChar)

/-- Is `needle` a contiguous infix of `hay`?  Models JS
`String.prototype.includes` (on the character lists). -/
def isInfixOfCL (needle hay : List Char) : Bool :=
  needle.isPrefixOf hay ||
    match hay with
    | [] => false
    | _ :: t => isInfixOfCL needle t

/-- JS `s.includes(sub)`. -/
def strIncludes (s sub : String) : Bool := isInfixOfCL sub.data s.data

/-- JS `String.prototype.trim` (drop leading and trailing whitespace). -/
def trimCL (l : List Char) : List Char :=
  ((l.dropWhile isWsChar).reverse.dropWhile isWsChar).reverse

/-- `trim` on a `String`. -/
def trimStr (s : String) : String := String.mk (trimCL s.data)

/-- Tokenizer for `query.split(/\s+/).filter(Boolean)`: the maximal
non-whitespace runs of the input.  `acc` holds the (reversed) run being
read. -/
def splitWsAux : List Char → List Char → List (List Char)
  | [], acc => if acc.isEmpty then [] else [acc.reverse]
  | c :: cs, acc =>
    if isWsChar c then
      if acc.isEmpty then splitWsAux cs [] else acc.reverse :: splitWsAux cs []
    else splitWsAux cs (c :: acc)

/-- `query.split(/\s+/).filter(Boolean)` over a character list. -/
def splitWs (l : List Char) : List (List Char) := splitWsAux l []

/-- Join a list of strings with single spaces: JS `Array.prototype.join(' ')`. -/
def joinSpace : List String → String
  | [] => ""
  | [s] => s
  | s :: rest => s ++ " " ++ joinSpace rest

/-- JS `pluralize` helper (src/popup.js line 150). -/
def pluralize (word : String) (count : Nat) : String :=
  if count = 1 then word else word ++ "s"

/-! ### Keyword extraction (src/popup.js `extractKeywords`, lines 1637-1682) -/

/-- The fixed stop-word set of `extractKeywords` (lines 1641-1659). -/
def stopWords : List String :=
  ["i", "me", "my", "your", "a", "an", "the",
   "tab", "tabs", "looking", "find", "search", "show", "open",
   "for", "about", "in", "on", "at", "to", "from", "with", "of",
   "and", "or", "but",
   "this", "that", "these", "those",
   "is", "are", "was", "were", "be", "been", "being",
   "have", "has", "had", "do", "does", "did",
   "will", "would", "should", "could", "may", "might", "can",
   "want", "need", "am", "try", "get", "go", "see",
   "related", "some", "any", "all", "where"]

/-- The `words` local of `extractKeywords` (line 1661):
`query.toLowerCase().split(/\s+/).filter(Boolean)`. -/
def queryWords (query : String) : List String :=
  (splitWs (query.data.map lowerChar)).map String.mk

/-- The `keywords` local of `extractKeywords` (lines 1664-1669): drop stop
words and tokens of length ≤ 2. -/
def queryKeywordsFiltered (query : String) : List String :=
  (queryWords query).filter (fun w => !stopWords.contains w && w.length > 2)

/-- `extractKeywords(query)` (lines 1637-1682): lowercase, split on
whitespace, drop stop words and tokens of length ≤ 2; if nothing
survives, return the unfiltered token list (lines 1673-1676). -/
def extractKeywords (query : String) : List String :=
  if (queryKeywordsFiltered query).isEmpty then queryWords query
  else queryKeywordsFiltered query

/-! ### Helper lemmas -/

/-! ### Data model

A document ("tab summary") as consumed by the scorers: the records built by
`getExistingSummaries` / `summarizeBatch` (`{id, title, url, summary, tags}`). -/

structure DocSummary where
  id : Nat
  title : String
  url : String
  summary : String
  tags : List String
deriving DecidableEq

/-! ### URL normalization

Modelled from the WHATWG URL parser invoked via `new URL(...)` in popup.js:
for absolute URLs of the shape `scheme://host/path?query#hash` we return the
scheme, the lowercased host, and the path up to the first `?` or `#`
(defaulting to `/`); anything without a nonempty alphabetic scheme followed
by `://` and a nonempty host is a parse failure (`new URL` throws and the
source falls into its `catch` branch).  The empty string in particular is a
parse failure. -/

structure UrlParts where
  protocol : String
  hostname : String
  pathname : String
deriving DecidableEq

/-- Split a character list at the first occurrence of `://`, returning the
part before and the part after. -/
def splitAtSchemeSep : List Char → Option (List Char × List Char)
  | [] => none
  | c :: cs =>
    if [':', '/', '/'].isPrefixOf (c :: cs) then some ([], (c :: cs).drop 3)
    else
      match splitAtSchemeSep cs with
      | some (pre, post) => some (c :: pre, post)
      | none => none

/-- Model of `new URL(url)` (see the section comment above). -/
def parseUrl (url : String) : Option UrlParts :=
  match splitAtSchemeSep url.data with
  | none => none
  | some (scheme, rest) =>
    if scheme.isEmpty || !scheme.all Char.isAlpha then none
    else
      let host := rest.takeWhile (fun c => c ≠ '/' && c ≠ '?' && c ≠ '#')
      let after := rest.dropWhile (fun c => c ≠ '/' && c ≠ '?' && c ≠ '#')
      if host.isEmpty then none
      else
        let path :=
          match after with
          | '/' :: _ => after.takeWhile (fun c => c ≠ '?' && c ≠ '#')
          | _ => ['/']
        some ⟨String.mk (scheme.map lowerChar) ++ ":",
              String.mk (host.map lowerChar),
              String.mk path⟩

/-- Remove the first occurrence of `pat` from `l` (JS
`String.prototype.replace` with a plain-string pattern and empty
replacement). -/
def removeFirstOcc (pat : List Char) : List Char → List Char
  | [] => []
  | c :: cs =>
    if pat.isPrefixOf (c :: cs) then (c :: cs).drop pat.length
    else c :: removeFirstOcc pat cs

/-- `pathname.replace(/[\/\-_]/g, ' ')`: every `/`, `-` or `_` becomes a
space. -/
def replacePathSeps (l : List Char) : List Char :=
  l.map (fun c => if c = '/' || c = '-' || c = '_' then ' ' else c)

/-- The normalized-URL search field of `performFallbackSearch` (lines
1702-1709): `hostname` without the first `www.` plus the `pathname` with
separators replaced by spaces, lowercased; on URL parse failure the raw URL,
lowercased. -/
def urlPartsField (url : String) : String :=
  match parseUrl url with
  | some u =>
    toLowerStr (String.mk (removeFirstOcc "www.".data u.hostname.data) ++ " " ++
      String.mk (replacePathSeps u.pathname.data))
  | none => toLowerStr url

/-! ### Tag search (src/popup.js `performTagSearch`, lines 1593-1634) -/

/-- The per-pair tag test of line 1610, for search tag `st` and (lowercased)
document tag `tt`: exact match or substring containment in either
direction. -/
def tagMatches (st tt : String) : Bool :=
  tt == st || strIncludes tt st || strIncludes st tt

/-- The `matchedTags` list accumulated for one document (lines 1603-1616):
one entry per search tag for which some document tag matches (the inner
loop's `break` makes each search tag contribute at most once). -/
def tagSearchMatched (searchTags : List String) (s : DocSummary) : List String :=
  searchTags.filter (fun st => (s.tags.map toLowerStr).any (fun tt => tagMatches st tt))

/-- The score accumulated for one document: `score += 10` for every search
tag pushed onto `matchedTags` (line 1612). -/
def tagSearchScore (searchTags : List String) (s : DocSummary) : Nat :=
  searchTags.foldl
    (fun acc st =>
      if (s.tags.map toLowerStr).any (fun tt => tagMatches st tt) then acc + 10 else acc) 0

/-- The documents included by `performTagSearch` (line 1619: included iff at
least one tag matched), in input order. -/
def tagResultDocs (summaries : List DocSummary) (searchTags : List String) : List DocSummary :=
  summaries.filter (fun s => !(tagSearchMatched searchTags s).isEmpty)

/-- `performTagSearch(summaries, searchTags)` (lines 1593-1634): the ids of
the included documents. -/
def performTagSearch (summaries : List DocSummary) (searchTags : List String) : List Nat :=
  (tagResultDocs summaries searchTags).map (fun s => s.id)

/-! ### Lexical scorer (src/popup.js `performFallbackSearch`, lines 1684-1814) -/

/-- Drop the last `suf.length` characters of `l`. -/
def stripSuffix (l suf : List Char) : List Char := l.take (l.length - suf.length)

/-- The naive stem of line 1732: `word.replace(/(?:ing|ed|s|es|ship|ships)$/i, '')`.
The anchored alternation's leftmost match is the longest of the six
alternatives that is a suffix of the word, so the suffixes are tested
longest-first.  (The `i` flag is irrelevant: every word fed to this is
already lowercase.) -/
def stemCL (l : List Char) : List Char :=
  if "ships".data.isSuffixOf l then stripSuffix l "ships".data
  else if "ship".data.isSuffixOf l then stripSuffix l "ship".data
  else if "ing".data.isSuffixOf l then stripSuffix l "ing".data
  else if "ed".data.isSuffixOf l then stripSuffix l "ed".data
  else if "es".data.isSuffixOf l then stripSuffix l "es".data
  else if "s".data.isSuffixOf l then stripSuffix l "s".data
  else l

/-- The stem as a string. -/
def stemWord (w : String) : String := String.mk (stemCL w.data)

/-- Exact-or-stemmed containment test used for every field (lines 1735-1739):
the field contains the word, or the stem has length ≥ 3 and the field
contains the stem. -/
def fieldMatch (field word : String) : Bool :=
  strIncludes field word || (3 ≤ (stemWord word).length && strIncludes field (stemWord word))

/-- The per-document weighted score of lines 1722-1765: for each word of
length ≥ 3, +5 for a title match, +7 for a tag match, +3 for a summary match
(non-aggressive only), +4 for a full-text match (aggressive only), +1 for a
URL match.  `fullText` is the (raw) full page text supplied in aggressive
mode, lowercased at line 1715. -/
def docScore (words : List String) (isAggressive : Bool) (fullTextRaw : String)
    (s : DocSummary) : Nat :=
  let title := toLowerStr s.title
  let summary := toLowerStr s.summary
  let tags := joinSpace (s.tags.map toLowerStr)
  let urlParts := urlPartsField s.url
  let fullText := toLowerStr fullTextRaw
  words.foldl
    (fun acc word =>
      if word.length < 3 then acc
      else
        let titleMatch := fieldMatch title word
        let summaryMatch := !isAggressive && fieldMatch summary word
        let tagMatch := fieldMatch tags word
        let urlMatch := fieldMatch urlParts word
        let fullTextMatch := isAggressive && fullText ≠ "" && fieldMatch fullText word
        acc + (if titleMatch then 5 else 0) + (if tagMatch then 7 else 0) +
          (if summaryMatch then 3 else 0) + (if fullTextMatch then 4 else 0) +
          (if urlMatch then 1 else 0))
    0

/-- A scored candidate of the lexical scorer (the fields of the objects
built at line 1767 that the selection depends on). -/
structure ScoredDoc where
  id : Nat
  score : Nat
deriving DecidableEq

/-- Descending-by-score ordering used for `scored.sort((a, b) =>
b.score - a.score)` (line 1770).  JS `Array.prototype.sort` is stable, and a
stable descending sort is `List.insertionSort` with the relation "may stay
before": `b.score ≤ a.score`. -/
def scoredLE (a b : ScoredDoc) : Prop := b.score ≤ a.score

instance : DecidableRel scoredLE := fun a b => Nat.decLe b.score a.score

instance : IsTotal ScoredDoc scoredLE := ⟨fun a b => le_total b.score a.score⟩

instance : IsTrans ScoredDoc scoredLE := ⟨fun _ _ _ hab hbc => le_trans hbc hab⟩

/-- The full-text string for document `s` given the optional
`fullTextData` array (lines 1712-1716): the entry with matching id, else
the empty string. -/
def fullTextFor (fullTextData : Option (List (Nat × String))) (s : DocSummary) : String :=
  match fullTextData with
  | some arr => (((arr.find? (fun p => p.1 == s.id)).map (fun p => p.2))).getD ""
  | none => ""

/-- The scored record the pipeline builds for document `s`. -/
def scoredOf (query : String) (fullTextData : Option (List (Nat × String)))
    (s : DocSummary) : ScoredDoc :=
  ⟨s.id, docScore (extractKeywords query) fullTextData.isSome (fullTextFor fullTextData s) s⟩

/-- `minScore = Math.max(words.length * 2, 4)` (line 1773). -/
def minScoreFor (termCount : Nat) : Nat := max (termCount * 2) 4

/-- The sorted, thresholded candidate list of `performFallbackSearch`
(lines 1696-1774): score every summary, sort descending by score, keep the
candidates with `score >= minScore`. -/
def fallbackFiltered (summaries : List DocSummary) (query : String)
    (fullTextData : Option (List (Nat × String))) : List ScoredDoc :=
  ((summaries.map (scoredOf query fullTextData)).insertionSort scoredLE).filter
    (fun x => minScoreFor (extractKeywords query).length ≤ x.score)

/-- `performFallbackSearch(summaries, query, fullTextData)` (lines
1684-1814): the ids of the retained candidates, best score first. -/
def performFallbackSearch (summaries : List DocSummary) (query : String)
    (fullTextData : Option (List (Nat × String))) : List Nat :=
  (fallbackFiltered summaries query fullTextData).map (fun x => x.id)

/-! ### Semantic scorer validation
(src/popup.js `tryOnDeviceSelectFromSummaries`, lines 1816-2177)

The on-device model is an external collaborator: its parsed response
(`parsed.results`, a list of `{ref, relevanceScore, reason}` records) is an
input of the validation pipeline modelled here.  `relevanceScore` is an
arbitrary JSON number, modelled as `Rat`; `Number.isFinite` (line 1934) is
vacuously true in this model.  The `typeof` checks are subsumed by typing;
the JS falsiness checks `!r.ref` / `!r.reason` reject the empty string and
are kept. -/

/-- A candidate record of the model's parsed response. -/
structure AICandidate where
  ref : String
  relevanceScore : Rat
  reason : String
deriving DecidableEq

/-- The anonymized tab records sent to the model (lines 1850-1857), with the
source's falsy-field defaults. -/
structure AnonTab where
  ref : String
  id : Nat
  title : String
  summary : String
  tags : List String
  url : String
deriving DecidableEq

/-- `anonymousTabs` (lines 1850-1857): `ref = 'tab' + (idx+1)` plus the
document fields with `'Untitled'` / `'No summary'` defaults. -/
def anonymousTabs (summaries : List DocSummary) : List AnonTab :=
  summaries.enum.map (fun p =>
    ⟨"tab" ++ toString (p.1 + 1), p.2.id,
     if p.2.title = "" then "Untitled" else p.2.title,
     if p.2.summary = "" then "No summary" else p.2.summary,
     p.2.tags, p.2.url⟩)

/-- `refToTab.get(ref)` (lines 1860-1865): the refs are pairwise distinct by
construction, so Map lookup is first-match lookup. -/
def refLookup (tabs : List AnonTab) (ref : String) : Option AnonTab :=
  tabs.find? (fun t => t.ref == ref)

/-- State machine for `reason.match(/'([^']+)'/g)` (line 1955): returns the
contents of the single-quoted substrings, left to right.  `some acc` means
an opening quote has been seen and `acc` is the (reversed) content so far;
an immediately following quote cannot close an empty match, so it becomes
the new opening quote, exactly as the regex (which requires `[^']+`)
rescans from the next position. -/
def extractQuotedAux : List Char → Option (List Char) → List (List Char)
  | [], _ => []
  | c :: cs, none =>
    if c = squote then extractQuotedAux cs (some []) else extractQuotedAux cs none
  | c :: cs, some acc =>
    if c = squote then
      if acc.isEmpty then extractQuotedAux cs (some [])
      else acc.reverse :: extractQuotedAux cs none
    else extractQuotedAux cs (some (c :: acc))

/-- The quoted substrings of a reason (contents only; the `match` result
keeps the enclosing apostrophes, which the source immediately strips with
`replace(/'/g, '')` — the content between the quotes cannot itself contain
an apostrophe). -/
def extractQuoted (reason : String) : List (List Char) :=
  extractQuotedAux reason.data none

/-- `cleanQuoted` (line 1962): strip the apostrophes (already done by
`extractQuoted`), lowercase, trim. -/
def cleanQuoted (q : List Char) : String := trimStr (toLowerStr (String.mk q))

/-- The four-field occurrence test of lines 1965-1968: the cleaned quote
occurs in the lowercased title, summary, URL, or space-joined tags. -/
def occursInTabFields (t : AnonTab) (c : String) : Bool :=
  strIncludes (toLowerStr t.title) c || strIncludes (toLowerStr t.summary) c ||
    strIncludes (toLowerStr t.url) c ||
    strIncludes (joinSpace (t.tags.map toLowerStr)) c

/-- The grounding check of lines 1955-1984: if the reason contains quoted
substrings, some quote of cleaned length ≥ 5 must occur in the tab's
fields (shorter quotes are skipped by the `continue` at line 1963);
with no quoted substrings the check passes vacuously. -/
def groundingOk (t : AnonTab) (reason : String) : Bool :=
  if 0 < (extractQuoted reason).length then
    (extractQuoted reason).any (fun q =>
      !(decide ((cleanQuoted q).length < 5)) && occursInTabFields t (cleanQuoted q))
  else true

/-- The fixed hedge-phrase list of lines 1988-2009. -/
def uncertaintyPhrases : List String :=
  ["but context is", "however", "but it", "although",
   "not directly", "not exactly", "might be", "could be",
   "possibly", "perhaps", "may be related", "somewhat related",
   "loosely related", "tangentially", "indirectly",
   "not quite", "not really", "unclear", "unsure", "uncertain"]

/-- Hedge detection (line 2011): any phrase occurring in the lowercased
reason. -/
def hasUncertainty (reasonLower : String) : Bool :=
  uncertaintyPhrases.any (fun p => strIncludes reasonLower p)

/-- Keyword-coverage rejection test of the first pass (lines 2022-2033):
`keywordMatchRatio < 0.4`, where the ratio is `found/total` (or `1` when
there are no keywords).  The float comparison is modelled exactly by the
rational inequality `5 * found < 2 * total`: for the tiny keyword counts
involved, IEEE doubles of `found/total` and of the literal `0.4` compare
identically to the exact rationals. -/
def lowCoverage1 (kws : List String) (reasonLower : String) : Bool :=
  if kws.length = 0 then false
  else decide (5 * (kws.filter (fun k => strIncludes reasonLower (toLowerStr k))).length <
    2 * kws.length)

/-- Keyword-coverage rejection test of the second pass (line 2111):
`keywordMatchRatio < 0.3`, i.e. `10 * found < 3 * total`. -/
def lowCoverage2 (kws : List String) (reasonLower : String) : Bool :=
  if kws.length = 0 then false
  else decide (10 * (kws.filter (fun k => strIncludes reasonLower (toLowerStr k))).length <
    3 * kws.length)

/-- The first validation pass (lines 1930-2043), as the conjunction of the
negated early-return rejections, in source order: non-empty ref, [finite
score], non-empty reason, `relevanceScore ≥ 6`, known ref, grounding, no
hedging, keyword coverage. -/
def firstPassAccept (tabs : List AnonTab) (kws : List String) (r : AICandidate) : Bool :=
  !(r.ref == "") && !(r.reason == "") && !(decide (r.relevanceScore < 6)) &&
    match refLookup tabs r.ref with
    | none => false
    | some tabData =>
      groundingOk tabData r.reason &&
        !(hasUncertainty (toLowerStr r.reason)) &&
        !(lowCoverage1 kws (toLowerStr r.reason) && decide (r.reason.length < 50))

/-- The second (relaxed) validation pass (lines 2049-2116): identical except
for the score floor `≥ 4` and the coverage threshold `0.3`. -/
def secondPassAccept (tabs : List AnonTab) (kws : List String) (r : AICandidate) : Bool :=
  !(r.ref == "") && !(r.reason == "") && !(decide (r.relevanceScore < 4)) &&
    match refLookup tabs r.ref with
    | none => false
    | some tabData =>
      groundingOk tabData r.reason &&
        !(hasUncertainty (toLowerStr r.reason)) &&
        !(lowCoverage2 kws (toLowerStr r.reason) && decide (r.reason.length < 50))

/-- Descending order by `relevanceScore` for
`.sort((a, b) => b.relevanceScore - a.relevanceScore)` (lines 2044, 2117);
stable descending sort is `insertionSort` with the "may stay before"
relation. -/
def candLE (a b : AICandidate) : Prop := b.relevanceScore ≤ a.relevanceScore

instance : DecidableRel candLE :=
  fun a b => inferInstanceAs (Decidable (b.relevanceScore ≤ a.relevanceScore))

instance : IsTotal AICandidate candLE := ⟨fun a b => le_total b.relevanceScore a.relevanceScore⟩

instance : IsTrans AICandidate candLE := ⟨fun _ _ _ hab hbc => le_trans hbc hab⟩

/-- The validated candidate list of `tryOnDeviceSelectFromSummaries` (lines
1929-2118): first pass with floor 6; if and only if it accepts nothing, a
second pass over the same parsed results with floor 4. -/
def tryOnDeviceValidate (summaries : List DocSummary) (query : String)
    (raw : List AICandidate) : List AICandidate :=
  if ((raw.filter (firstPassAccept (anonymousTabs summaries) (extractKeywords query))).insertionSort
      candLE).length = 0 then
    (raw.filter (secondPassAccept (anonymousTabs summaries) (extractKeywords query))).insertionSort
      candLE
  else
    (raw.filter (firstPassAccept (anonymousTabs summaries) (extractKeywords query))).insertionSort
      candLE

/-- The `finalIds` returned to the reconciler (lines 2121-2128): the
validated candidates' refs mapped back to real ids via `refToId`. -/
def tryOnDeviceSelectIds (summaries : List DocSummary) (query : String)
    (raw : List AICandidate) : List Nat :=
  (tryOnDeviceValidate summaries query raw).map
    (fun r => (((refLookup (anonymousTabs summaries) r.ref).map (fun t => t.id))).getD 0)

/-- A single apostrophe as a string (used to build reason strings containing
quoted substrings). -/
def sqS : String := String.mk [squote]

/-- The document used in the C1 grounding counterexample/witness. -/
def cOneDoc : DocSummary := ⟨1, "Ice Cream Recipes", "", "", []⟩

/-- The semantic candidate of the C1 counterexample: its reason quotes both
`'ice cream recipes'` (which occurs in the document's title) and
`'zzzzzyy'` (which occurs nowhere in the document). -/
def cOneCand : AICandidate :=
  ⟨"tab1", 10,
   "Keywords: " ++ sqS ++ "ice cream recipes" ++ sqS ++ " in title and " ++ sqS ++ "zzzzzyy" ++
     sqS ++ " elsewhere"⟩

/-! ### Result reconciler
(src/popup.js `selectFromSummariesWithAIOrFallback`, normal hybrid flow,
lines 1428-1567)

The control flow launches the lexical ("fallback") search and the semantic
(AI) search concurrently, returns a non-empty fallback result provisionally,
and lets the AI promise's `.then` callback replace the active result set
wholesale when the AI returns a non-empty id list (lines 1482-1484: "Use
ONLY AI results, discard fallback-only tabs").  `hybridFinalIds` is the
resolved final active result set as a function of the two scorers' outputs
and the abort flag sampled at the two check points (line 1438 before
returning the provisional set, line 1455 at AI resolution). -/

/-- The final active result set of the hybrid flow (see section comment). -/
def hybridFinalIds (fallbackIds aiIds : List Nat)
    (abortedBeforeAI abortedAtAIResolve : Bool) : List Nat :=
  if abortedBeforeAI then []
  else if 0 < fallbackIds.length then
    if abortedAtAIResolve then fallbackIds
    else if 0 < aiIds.length then aiIds else fallbackIds
  else aiIds

/-! ### Summarization (src/popup.js `summarizeBatch`, lines 1023-1135, and
`generateFallbackTags`, lines 1137-1193)

The on-device model call `applyOnDevicePrompt` and the JSON parse
`safeJsonParse` are external collaborators: the raw response and its parsed
form are oracle inputs of the per-item summarization step modelled here
(`raw = none` models the call throwing, caught at line 1097; `parsed =
none` models an unparseable response). -/

/-- An item of the extracted batch fed to `summarizeBatch`. -/
structure ExtractedItem where
  id : Nat
  title : String
  url : String
  text : String
deriving DecidableEq

/-- The parsed JSON response for one item: `summary` (falsy = empty) and
`tags` (`none` models a missing/non-array `tags` field, for the
`Array.isArray` check at line 1093). -/
structure ParsedResp where
  summary : String
  tags : Option (List String)
deriving DecidableEq

/-- The summary record produced for one item. -/
structure SummaryRecord where
  id : Nat
  title : String
  url : String
  summary : String
  tags : List String
deriving DecidableEq

/-- The truncation pattern used at lines 1085-1087, 1091-1092 and
1112-1120, always with `maxLength = 500`:
`s.length > 500 ? s.slice(0, 500) + '...' : s`. -/
def truncate500 (s : String) : String :=
  if 500 < s.length then String.mk (s.data.take 500) ++ "..." else s

/-- First-occurrence deduplication: `[...new Set(tags)]` (line 1191). -/
def dedupFirstAux : List String → List String → List String
  | [], _ => []
  | x :: xs, seen =>
    if seen.contains x then dedupFirstAux xs seen else x :: dedupFirstAux xs (x :: seen)

/-- `[...new Set(tags)]`. -/
def dedupFirst (l : List String) : List String := dedupFirstAux l []

/-- `generateFallbackTags(title, url)` (lines 1137-1193): domain-based and
path-based tags (skipped entirely when `new URL` throws, lines 1172-1174),
then title-based tags, deduplicated and limited to 3. -/
def generateFallbackTags (title url : String) : List String :=
  let urlTags :=
    match parseUrl url with
    | none => []
    | some u =>
      let domain := toLowerStr (String.mk (removeFirstOcc "www.".data u.hostname.data))
      let domainTags :=
        if strIncludes domain "github" then ["development"]
        else if strIncludes domain "stackoverflow" || strIncludes domain "stackexchange" then
          ["programming"]
        else if strIncludes domain "youtube" || strIncludes domain "vimeo" then ["video"]
        else if strIncludes domain "linkedin" || strIncludes domain "twitter" ||
            strIncludes domain "facebook" then ["social"]
        else if strIncludes domain "amazon" || strIncludes domain "ebay" ||
            strIncludes domain "shop" then ["shopping"]
        else if strIncludes domain "gmail" || strIncludes domain "outlook" ||
            strIncludes domain "mail" then ["email"]
        else if strIncludes domain "docs.google" || strIncludes domain "office.com" then
          ["documents"]
        else if strIncludes domain "calendar" then ["calendar"]
        else if strIncludes domain "drive.google" || strIncludes domain "dropbox" ||
            strIncludes domain "onedrive" then ["storage"]
        else if strIncludes domain "news" || strIncludes domain "cnn" ||
            strIncludes domain "bbc" then ["news"]
        else
          match domain.splitOn "." with
          | [] => []
          | [_] => []
          | p :: _ :: _ => [p]
      let path := toLowerStr u.pathname
      let pathTags :=
        (if strIncludes path "insurance" then ["insurance"] else []) ++
        (if strIncludes path "finance" || strIncludes path "bank" then ["finance"] else []) ++
        (if strIncludes path "health" || strIncludes path "medical" then ["health"] else []) ++
        (if strIncludes path "education" || strIncludes path "course" then ["education"] else []) ++
        (if strIncludes path "job" || strIncludes path "career" then ["jobs"] else [])
      domainTags ++ pathTags
  let titleTags :=
    if title = "" then []
    else
      let tl := toLowerStr title
      (if strIncludes tl "insurance" then ["insurance"] else []) ++
      (if strIncludes tl "finance" || strIncludes tl "bank" then ["finance"] else []) ++
      (if strIncludes tl "health" || strIncludes tl "medical" then ["health"] else []) ++
      (if strIncludes tl "education" || strIncludes tl "course" then ["education"] else []) ++
      (if strIncludes tl "job" || strIncludes tl "career" then ["jobs"] else []) ++
      (if strIncludes tl "news" then ["news"] else []) ++
      (if strIncludes tl "shop" || strIncludes tl "buy" then ["shopping"] else []) ++
      (if strIncludes tl "video" || strIncludes tl "watch" then ["video"] else []) ++
      (if strIncludes tl "doc" || strIncludes tl "edit" then ["documents"] else [])
  (dedupFirst (urlTags ++ titleTags)).take 3

/-- The summary/tags pair produced by the AI branch of `summarizeBatch`
(lines 1048-1108): empty summary when there is no session or no extracted
text (line 1051), when the prompt throws (`raw = none`, line 1097), or when
the parsed response lacks a truthy `summary`; otherwise the (truncated)
plain-text response (lines 1082-1088) or the parsed summary with the tag
list cut to 3 (lines 1090-1094). -/
def aiSummaryTags (hasSession : Bool) (item : ExtractedItem) (raw : Option String)
    (parsed : Option ParsedResp) : String × List String :=
  if hasSession ∧ item.text ≠ "" then
    match raw with
    | none => ("", [])
    | some rawStr =>
      match parsed with
      | none => (truncate500 (trimStr rawStr), [])
      | some p =>
        if p.summary ≠ "" then
          (truncate500 p.summary,
           match p.tags with
           | some ts => ts.take 3
           | none => [])
        else ("", [])
  else ("", [])

/-- `item.text || item.title || item.url || ''` (line 1113). -/
def fallbackTextFor (item : ExtractedItem) : String :=
  if item.text ≠ "" then item.text else if item.title ≠ "" then item.title else item.url

/-- The record produced by `summarizeBatch` for one item (lines 1047-1129):
the AI branch's summary/tags, or — when the summary is still falsy (line
1110) — the truncated fallback text with `generateFallbackTags`. -/
def summarizeOne (hasSession : Bool) (item : ExtractedItem) (raw : Option String)
    (parsed : Option ParsedResp) : SummaryRecord :=
  if (aiSummaryTags hasSession item raw parsed).1 = "" then
    ⟨item.id, item.title, item.url, truncate500 (fallbackTextFor item),
     generateFallbackTags item.title item.url⟩
  else
    ⟨item.id, item.title, item.url, (aiSummaryTags hasSession item raw parsed).1,
     (aiSummaryTags hasSession item raw parsed).2⟩

/-! ### Aggressive (progressive) search
(src/popup.js `selectFromSummariesWithAIOrFallback`, aggressive branch,
lines 1214-1390, and `isScriptableUrl`, lines 838-859)

Tabs are scored strictly one at a time; `fullTextOf` is the oracle for the
external content-script call `extractFullPageText` (the
`fullTextResult[0]?.fullText || ''` value), and `aborted` is the value of
`signal.aborted` as sampled at loop iteration `i` (line 1242). -/

/-- A browser tab as returned by `chrome.tabs.query({})`. -/
structure BrowserTab where
  id : Nat
  title : String
  url : String
deriving DecidableEq

/-- `isScriptableUrl(url)` (lines 838-859). -/
def isScriptableUrl (url : String) : Bool :=
  match parseUrl url with
  | none => false
  | some u =>
    if u.protocol ≠ "http:" ∧ u.protocol ≠ "https:" then false
    else if u.hostname = "chrome.google.com" ∧ "/webstore".data.isPrefixOf u.pathname.data then
      false
    else if u.hostname = "chromewebstore.google.com" then false
    else if u.hostname = "chrome.google.com" then false
    else if u.protocol = "chrome-extension:" then false
    else if "chrome".data.isPrefixOf u.protocol.data then false
    else true

/-- The quick per-tab score of the aggressive loop (lines 1247-1287):
title +5, tags +7, URL +1 for each word of length ≥ 3, over the summary's
lowercased title, space-joined lowercased tags, and normalized URL. -/
def aggQuickScore (words : List String) (s : DocSummary) : Nat :=
  words.foldl
    (fun acc word =>
      if word.length < 3 then acc
      else
        acc + (if fieldMatch (toLowerStr s.title) word then 5 else 0) +
          (if fieldMatch (joinSpace (s.tags.map toLowerStr)) word then 7 else 0) +
          (if fieldMatch (urlPartsField s.url) word then 1 else 0))
    0

/-- The additional content score of the full-text pass (lines 1327-1338):
+4 for each word of length ≥ 3 found in the lowercased page text. -/
def aggContentScore (words : List String) (fullTextRaw : String) : Nat :=
  words.foldl
    (fun acc word =>
      if word.length < 3 then acc
      else if fieldMatch (toLowerStr fullTextRaw) word then acc + 4 else acc)
    0

/-- The sequential tab loop of the aggressive branch (lines 1236-1373):
skip tabs without a summary (line 1239); break out of the loop when the
signal is aborted (lines 1242-1245); otherwise add the tab when the quick
score reaches `minScore`, or — for scriptable tabs with non-empty extracted
text — when quick plus content score reaches `minScore`. -/
def aggressiveLoop (sums : List DocSummary) (words : List String) (minScore : Nat)
    (fullTextOf : Nat → String) (aborted : Nat → Bool) :
    List BrowserTab → Nat → List Nat
  | [], _ => []
  | tab :: rest, i =>
    match sums.find? (fun s => s.id == tab.id) with
    | none => aggressiveLoop sums words minScore fullTextOf aborted rest (i + 1)
    | some s =>
      if aborted i then []
      else if minScore ≤ aggQuickScore words s then
        tab.id :: aggressiveLoop sums words minScore fullTextOf aborted rest (i + 1)
      else if isScriptableUrl tab.url then
        if fullTextOf tab.id ≠ "" then
          if minScore ≤ aggQuickScore words s + aggContentScore words (fullTextOf tab.id) then
            tab.id :: aggressiveLoop sums words minScore fullTextOf aborted rest (i + 1)
          else aggressiveLoop sums words minScore fullTextOf aborted rest (i + 1)
        else aggressiveLoop sums words minScore fullTextOf aborted rest (i + 1)
      else aggressiveLoop sums words minScore fullTextOf aborted rest (i + 1)

/-- The id list returned by the aggressive branch (line 1389). -/
def aggressiveSearch (tabs : List BrowserTab) (sums : List DocSummary) (query : String)
    (fullTextOf : Nat → String) (aborted : Nat → Bool) : List Nat :=
  aggressiveLoop sums (extractKeywords query) (minScoreFor (extractKeywords query).length)
    fullTextOf aborted tabs 0

/-- The status message set after the loop finishes — whether it ran to
completion or was broken out of by a cancellation (line 1376):
`Found N tab(s) (searched all M tabs).` -/
def aggressiveFinalStatus (results : List Nat) (tabs : List BrowserTab) : String :=
  "Found " ++ toString results.length ++ " " ++ pluralize "tab" results.length ++
    " (searched all " ++ toString tabs.length ++ " tabs)."

/-! ### Theorems -/

theorem toNat_ofNatAux (n : Nat) (h : n.isValidChar) : (Char.ofNatAux n h).toNat = n := rfl

theorem isWsChar_false_of_ge {c : Char} (h : 33 ≤ c.toNat) : isWsChar c = false := by
  unfold isWsChar
  simp only [Bool.or_eq_false_iff, beq_eq_false_iff_ne]
  refine ⟨⟨⟨⟨⟨?_, ?_⟩, ?_⟩, ?_⟩, ?_⟩, ?_⟩ <;>
    · intro hEq
      subst hEq
      exact absurd h (by decide)

theorem lowerChar_not_ws {c : Char} (h : isWsChar c = false) :
    isWsChar (lowerChar c) = false := by
  unfold lowerChar
  split
  · next hr =>
    apply isWsChar_false_of_ge
    rw [toNat_ofNatAux]
    omega
  · exact h

theorem splitWsAux_ne_nil_of_acc {l : List Char} {acc : List Char} (h : acc.isEmpty = false) :
    splitWsAux l acc ≠ [] := by
  induction l generalizing acc with
  | nil => simp [splitWsAux, h]
  | cons c cs ih =>
    unfold splitWsAux
    by_cases hw : isWsChar c
    · simp [hw, h]
    · simp only [hw, Bool.false_eq_true, if_false]
      exact ih (by simp)

theorem splitWs_ne_nil {l : List Char} (h : ∃ c ∈ l, isWsChar c = false) :
    splitWs l ≠ [] := by
  unfold splitWs
  induction l with
  | nil => simp at h
  | cons d ds ih =>
    unfold splitWsAux
    by_cases hw : isWsChar d
    · simp only [hw, if_true, List.isEmpty_nil, if_true]
      apply ih
      obtain ⟨c, hc, hlc⟩ := h
      rcases List.mem_cons.mp hc with hc | hc
      · subst hc; rw [hw] at hlc; cases hlc
      · exact ⟨c, hc, hlc⟩
    · simp only [hw, Bool.false_eq_true, if_false]
      exact splitWsAux_ne_nil_of_acc (by simp)

/-- C8: for every non-empty query containing at least one non-whitespace
character, `extractKeywords` returns a non-empty list of terms: when
stop-word/length filtering removes every token, the unfiltered lowercase
token list is returned instead. -/
theorem extractKeywords_ne_nil (query : String)
    (h : ∃ c ∈ query.data, isWsChar c = false) :
    extractKeywords query ≠ [] := by
  unfold extractKeywords
  have hwords : splitWs (query.data.map lowerChar) ≠ [] := by
    apply splitWs_ne_nil
    obtain ⟨c, hc, hlc⟩ := h
    exact ⟨lowerChar c, List.mem_map_of_mem lowerChar hc, lowerChar_not_ws hlc⟩
  intro hcontra
  split at hcontra
  · next hk =>
    exact hwords (by simpa [queryWords] using congrArg (List.map String.data) hcontra)
  · next hk =>
    exact hk (by simp [hcontra])

/-- Witness for C8 at the concrete query "find my tab": all three tokens are
stop words, so the unfiltered token list is returned, which is non-empty. -/
theorem extractKeywords_ne_nil_witness :
    (∃ c ∈ ("find my tab").data, isWsChar c = false) ∧ extractKeywords "find my tab" ≠ [] :=
  ⟨by decide, extractKeywords_ne_nil "find my tab" (by decide)⟩

theorem tagSearchScore_aux (searchTags : List String) (s : DocSummary) (acc : Nat) :
    searchTags.foldl
      (fun acc st =>
        if (s.tags.map toLowerStr).any (fun tt => tagMatches st tt) then acc + 10 else acc) acc =
      acc + 10 * (tagSearchMatched searchTags s).length := by
  induction searchTags generalizing acc with
  | nil => simp [tagSearchMatched]
  | cons st rest ih =>
    by_cases h : (s.tags.map toLowerStr).any (fun tt => tagMatches st tt)
    · simp only [List.foldl_cons, h, if_true, tagSearchMatched, List.filter_cons, List.length_cons]
      rw [ih]
      unfold tagSearchMatched
      ring
    · simp only [List.foldl_cons, h, Bool.false_eq_true, if_false, tagSearchMatched,
        List.filter_cons]
      rw [ih]
      unfold tagSearchMatched
      simp [h]

/-- C7 (counterexample): with the duplicate query tag list `["web","web"]`
and a document tagged `"webdev"`, the document is included and its score is
`10` per matching entry of the query tag list, i.e. `20`, while the number
of distinct matched query tags is `1` — so the score is not `10` times the
number of distinct matched query tags. -/
theorem performTagSearch_distinct_counterexample :
    performTagSearch [⟨1, "", "", "", ["webdev"]⟩] ["web", "web"] = [1] ∧
    tagSearchScore ["web", "web"] ⟨1, "", "", "", ["webdev"]⟩ = 20 ∧
    (tagSearchMatched ["web", "web"] ⟨1, "", "", "", ["webdev"]⟩).dedup.length = 1 ∧
    (20 : Nat) ≠ 10 * 1 := by
  refine ⟨by decide, by decide, by decide, by decide⟩

/-- C7 (amended): a document is included by `performTagSearch` exactly when
at least one query tag matches one of its tags by case-insensitive equality
or substring containment in either direction, with no minimum-score
threshold, and its score is `10` times the number of matched ENTRIES of the
query tag list (each entry counted once even if it matches several document
tags); when the query tag list has no duplicates this equals `10` times the
number of distinct matched query tags.  In particular `"webdev"` matches
query tag `"web"` while `"js"` does not match query tag `"javascript"`. -/
theorem performTagSearch_spec :
    (∀ (summaries : List DocSummary) (searchTags : List String) (s : DocSummary),
        s ∈ summaries →
          (s ∈ tagResultDocs summaries searchTags ↔ tagSearchMatched searchTags s ≠ [])) ∧
    (∀ (summaries : List DocSummary) (searchTags : List String),
        performTagSearch summaries searchTags =
          (tagResultDocs summaries searchTags).map (fun s => s.id)) ∧
    (∀ (searchTags : List String) (s : DocSummary),
        tagSearchScore searchTags s = 10 * (tagSearchMatched searchTags s).length) ∧
    (∀ (searchTags : List String) (s : DocSummary), searchTags.Nodup →
        (tagSearchMatched searchTags s).length = (tagSearchMatched searchTags s).dedup.length) ∧
    tagMatches "web" "webdev" = true ∧ tagMatches "javascript" "js" = false := by
  refine ⟨?_, ?_, ?_, ?_, by decide, by decide⟩
  · intro summaries searchTags s hs
    unfold tagResultDocs
    rw [List.mem_filter]
    constructor
    · rintro ⟨-, hp⟩
      simpa using hp
    · intro hne
      exact ⟨hs, by simpa using hne⟩
  · intro summaries searchTags
    rfl
  · intro searchTags s
    have h := tagSearchScore_aux searchTags s 0
    unfold tagSearchScore
    omega
  · intro searchTags s hnd
    unfold tagSearchMatched
    rw [List.Nodup.dedup (List.Nodup.filter _ hnd)]

/-- Witness for C7's amended theorem: document tagged `"webdev"`, query tags
`["web"]` (duplicate-free): the document is included with score `10`. -/
theorem performTagSearch_spec_witness :
    (⟨1, "", "", "", ["webdev"]⟩ : DocSummary) ∈ tagResultDocs [⟨1, "", "", "", ["webdev"]⟩] ["web"] ∧
    tagSearchScore ["web"] ⟨1, "", "", "", ["webdev"]⟩ = 10 := by
  constructor
  · exact (performTagSearch_spec.1 [⟨1, "", "", "", ["webdev"]⟩] ["web"]
      ⟨1, "", "", "", ["webdev"]⟩ (by decide)).mpr (by decide)
  · rw [performTagSearch_spec.2.2.1 ["web"] ⟨1, "", "", "", ["webdev"]⟩]
    decide

/-- C3: the lexical scorer retains a document exactly when its accumulated
weighted score reaches `max(termCount * 2, 4)` where `termCount` is the
number of extracted terms; the retained candidates are ordered by score
descending; the returned ids are exactly the retained candidates' ids in
that order; and in particular a 1-term query requires score ≥ 4 and a
3-term query requires score ≥ 6. -/
theorem performFallbackSearch_spec :
    (∀ (summaries : List DocSummary) (query : String)
        (fullTextData : Option (List (Nat × String))) (s : DocSummary),
        s ∈ summaries →
          (scoredOf query fullTextData s ∈ fallbackFiltered summaries query fullTextData ↔
            minScoreFor (extractKeywords query).length ≤ (scoredOf query fullTextData s).score)) ∧
    (∀ (summaries : List DocSummary) (query : String)
        (fullTextData : Option (List (Nat × String))),
        List.Sorted (fun a b : Nat => b ≤ a)
          ((fallbackFiltered summaries query fullTextData).map (fun x => x.score))) ∧
    (∀ (summaries : List DocSummary) (query : String)
        (fullTextData : Option (List (Nat × String))),
        performFallbackSearch summaries query fullTextData =
          (fallbackFiltered summaries query fullTextData).map (fun x => x.id)) ∧
    minScoreFor 1 = 4 ∧ minScoreFor 3 = 6 := by
  refine ⟨?_, ?_, fun _ _ _ => rfl, rfl, rfl⟩
  · intro summaries query fullTextData s hs
    unfold fallbackFiltered
    rw [List.mem_filter]
    constructor
    · rintro ⟨-, hp⟩
      simpa using hp
    · intro hscore
      refine ⟨?_, by simpa using hscore⟩
      rw [(List.perm_insertionSort scoredLE _).mem_iff]
      exact List.mem_map_of_mem (scoredOf query fullTextData) hs
  · intro summaries query fullTextData
    unfold fallbackFiltered
    rw [List.Sorted, List.pairwise_map]
    exact List.Pairwise.filter _
      (List.sorted_insertionSort scoredLE (summaries.map (scoredOf query fullTextData)))

/-- Witness for C3: a single document whose title contains both terms of the
query "ice cream" scores 10 ≥ 4 and is retained. -/
theorem performFallbackSearch_spec_witness :
    scoredOf "ice cream" none ⟨1, "Ice Cream Recipes", "", "", []⟩ ∈
      fallbackFiltered [⟨1, "Ice Cream Recipes", "", "", []⟩] "ice cream" none ∧
    performFallbackSearch [⟨1, "Ice Cream Recipes", "", "", []⟩] "ice cream" none = [1] := by
  constructor
  · exact (performFallbackSearch_spec.1 [⟨1, "Ice Cream Recipes", "", "", []⟩] "ice cream" none
      ⟨1, "Ice Cream Recipes", "", "", []⟩ (by decide)).mpr (by decide)
  · rw [performFallbackSearch_spec.2.2.1 [⟨1, "Ice Cream Recipes", "", "", []⟩] "ice cream" none]
    decide

theorem lowCoverage2_imp1 (kws : List String) (rl : String) (h : lowCoverage2 kws rl = true) :
    lowCoverage1 kws rl = true := by
  unfold lowCoverage1 lowCoverage2 at *
  split at h
  · cases h
  · next hne =>
    rw [if_neg hne]
    rw [decide_eq_true_iff] at h ⊢
    omega

theorem firstPass_imp_secondPass (tabs : List AnonTab) (kws : List String) (r : AICandidate)
    (h : firstPassAccept tabs kws r = true) : secondPassAccept tabs kws r = true := by
  unfold firstPassAccept at h
  unfold secondPassAccept
  simp only [Bool.and_eq_true] at h ⊢
  obtain ⟨⟨⟨h1, h2⟩, h3⟩, hm⟩ := h
  refine ⟨⟨⟨h1, h2⟩, ?_⟩, ?_⟩
  · rw [Bool.not_eq_true', decide_eq_false_iff_not] at h3 ⊢
    intro h4
    exact h3 (h4.trans (by norm_num))
  · revert hm
    cases hfind : refLookup tabs r.ref with
    | none => intro hm; cases hm
    | some t =>
      intro hm
      simp only [Bool.and_eq_true] at hm ⊢
      obtain ⟨⟨hg, hu⟩, hc⟩ := hm
      refine ⟨⟨hg, hu⟩, ?_⟩
      cases hl2 : lowCoverage2 kws (toLowerStr r.reason) with
      | false => simp
      | true =>
        rw [lowCoverage2_imp1 _ _ hl2] at hc
        simpa using hc

theorem firstPassAccept_score {tabs : List AnonTab} {kws : List String} {r : AICandidate}
    (h : firstPassAccept tabs kws r = true) : 6 ≤ r.relevanceScore := by
  simp only [firstPassAccept, Bool.and_eq_true] at h
  obtain ⟨⟨⟨-, -⟩, h3⟩, -⟩ := h
  rw [Bool.not_eq_true', decide_eq_false_iff_not, not_lt] at h3
  exact h3

theorem secondPassAccept_score {tabs : List AnonTab} {kws : List String} {r : AICandidate}
    (h : secondPassAccept tabs kws r = true) : 4 ≤ r.relevanceScore := by
  simp only [secondPassAccept, Bool.and_eq_true] at h
  obtain ⟨⟨⟨-, -⟩, h3⟩, -⟩ := h
  rw [Bool.not_eq_true', decide_eq_false_iff_not, not_lt] at h3
  exact h3

theorem mem_validate {summaries : List DocSummary} {query : String} {raw : List AICandidate}
    {r : AICandidate} (h : r ∈ tryOnDeviceValidate summaries query raw) :
    firstPassAccept (anonymousTabs summaries) (extractKeywords query) r = true ∨
      secondPassAccept (anonymousTabs summaries) (extractKeywords query) r = true := by
  unfold tryOnDeviceValidate at h
  split at h
  · exact Or.inr (List.mem_filter.mp ((List.perm_insertionSort candLE _).mem_iff.mp h)).2
  · exact Or.inl (List.mem_filter.mp ((List.perm_insertionSort candLE _).mem_iff.mp h)).2

theorem validate_first_branch {summaries : List DocSummary} {query : String}
    {raw : List AICandidate}
    (h : raw.filter (firstPassAccept (anonymousTabs summaries) (extractKeywords query)) ≠ []) :
    tryOnDeviceValidate summaries query raw =
      (raw.filter (firstPassAccept (anonymousTabs summaries)
        (extractKeywords query))).insertionSort candLE := by
  unfold tryOnDeviceValidate
  rw [if_neg]
  intro hlen
  apply h
  apply List.length_eq_zero.mp
  rw [← (List.perm_insertionSort candLE
    (raw.filter (firstPassAccept (anonymousTabs summaries) (extractKeywords query)))).length_eq]
  exact hlen

theorem validate_second_branch {summaries : List DocSummary} {query : String}
    {raw : List AICandidate}
    (h : raw.filter (firstPassAccept (anonymousTabs summaries) (extractKeywords query)) = []) :
    tryOnDeviceValidate summaries query raw =
      (raw.filter (secondPassAccept (anonymousTabs summaries)
        (extractKeywords query))).insertionSort candLE := by
  unfold tryOnDeviceValidate
  rw [if_pos]
  rw [(List.perm_insertionSort candLE
    (raw.filter (firstPassAccept (anonymousTabs summaries) (extractKeywords query)))).length_eq, h]
  rfl

/-- C6: the first validation pass requires `relevanceScore ≥ 6`; if and only
if it accepts zero candidates, a second pass runs over the same parsed
response with the relaxed floor `≥ 4`; the relaxation only goes in that
direction (everything the strict pass accepts, the relaxed pass accepts),
and a non-empty first pass is never widened (the result is then exactly the
sorted first-pass list). -/
theorem scoreFloor_spec :
    (∀ (summaries : List DocSummary) (query : String) (raw : List AICandidate),
        raw.filter (firstPassAccept (anonymousTabs summaries) (extractKeywords query)) ≠ [] →
          tryOnDeviceValidate summaries query raw =
            (raw.filter (firstPassAccept (anonymousTabs summaries)
              (extractKeywords query))).insertionSort candLE ∧
          ∀ r ∈ tryOnDeviceValidate summaries query raw, 6 ≤ r.relevanceScore) ∧
    (∀ (summaries : List DocSummary) (query : String) (raw : List AICandidate),
        raw.filter (firstPassAccept (anonymousTabs summaries) (extractKeywords query)) = [] →
          tryOnDeviceValidate summaries query raw =
            (raw.filter (secondPassAccept (anonymousTabs summaries)
              (extractKeywords query))).insertionSort candLE ∧
          ∀ r ∈ tryOnDeviceValidate summaries query raw, 4 ≤ r.relevanceScore) ∧
    (∀ (tabs : List AnonTab) (kws : List String) (r : AICandidate),
        firstPassAccept tabs kws r = true → secondPassAccept tabs kws r = true) := by
  refine ⟨?_, ?_, firstPass_imp_secondPass⟩
  · intro summaries query raw hne
    refine ⟨validate_first_branch hne, ?_⟩
    intro r hr
    rcases mem_validate hr with hp | hp
    · exact firstPassAccept_score hp
    · rw [validate_first_branch hne] at hr
      exact firstPassAccept_score
        (List.mem_filter.mp ((List.perm_insertionSort candLE _).mem_iff.mp hr)).2
  · intro summaries query raw hnil
    refine ⟨validate_second_branch hnil, ?_⟩
    intro r hr
    rcases mem_validate hr with hp | hp
    · exact (secondPassAccept_score (firstPass_imp_secondPass _ _ _ hp))
    · exact secondPassAccept_score hp

/-- Witness for C6: a candidate with score 9 and a grounded, hedge-free
reason survives the first pass, so the result is exactly the sorted
first-pass list and every accepted score is ≥ 6. -/
theorem scoreFloor_spec_witness :
    tryOnDeviceValidate [⟨1, "Ice Cream Recipes", "", "", []⟩] "ice cream"
        [⟨"tab1", 9, "Title says ice cream recipes here"⟩] =
      (([⟨"tab1", 9, "Title says ice cream recipes here"⟩] :
          List AICandidate).filter (firstPassAccept
            (anonymousTabs [⟨1, "Ice Cream Recipes", "", "", []⟩])
            (extractKeywords "ice cream"))).insertionSort candLE ∧
    (6 : Rat) ≤ (⟨"tab1", 9, "Title says ice cream recipes here"⟩ : AICandidate).relevanceScore := by
  constructor
  · exact (scoreFloor_spec.1 [⟨1, "Ice Cream Recipes", "", "", []⟩] "ice cream"
      [⟨"tab1", 9, "Title says ice cream recipes here"⟩] (by decide)).1
  · exact (scoreFloor_spec.1 [⟨1, "Ice Cream Recipes", "", "", []⟩] "ice cream"
      [⟨"tab1", 9, "Title says ice cream recipes here"⟩] (by decide)).2
      ⟨"tab1", 9, "Title says ice cream recipes here"⟩ (by decide)

theorem pass_grounding {tabs : List AnonTab} {kws : List String} {r : AICandidate}
    (h : firstPassAccept tabs kws r = true ∨ secondPassAccept tabs kws r = true) :
    ∃ t, refLookup tabs r.ref = some t ∧ groundingOk t r.reason = true := by
  rcases h with h | h <;>
  · first
      | simp only [firstPassAccept, Bool.and_eq_true] at h
      | simp only [secondPassAccept, Bool.and_eq_true] at h
    obtain ⟨-, hm⟩ := h
    revert hm
    cases hfind : refLookup tabs r.ref with
    | none => intro hm; cases hm
    | some t =>
      intro hm
      simp only [Bool.and_eq_true] at hm
      exact ⟨t, rfl, hm.1.1⟩

/-- C1 (counterexample): a candidate whose reason contains the quoted
substring `'zzzzzyy'` (7 ≥ 5 characters) that does not occur in any of the
document's title/summary/URL/tags is nonetheless accepted into the
validated result set at `relevanceScore = 10`, because one OTHER quoted
substring does occur — so the claim "excluded whenever a quoted substring
does not occur" is false. -/
theorem groundingCheck_counterexample :
    tryOnDeviceValidate [cOneDoc] "ice cream" [cOneCand] = [cOneCand] ∧
    "zzzzzyy" ∈ (extractQuoted cOneCand.reason).map cleanQuoted ∧
    5 ≤ ("zzzzzyy" : String).length ∧
    (∀ t ∈ anonymousTabs [cOneDoc], occursInTabFields t "zzzzzyy" = false) ∧
    cOneCand.relevanceScore = 10 :=
  ⟨by decide, by decide, by decide, by decide, by decide⟩

/-- C1 (amended): a semantic candidate accepted into the validated result
set whose reason contains at least one single-quoted substring always has
SOME quoted substring of (cleaned) length ≥ 5 that literally occurs,
case-insensitively, in its own document's title, summary, URL or tags —
one matching quote suffices, even if other quoted substrings occur
nowhere; conversely a candidate none of whose quoted substrings occur in
the document is excluded. -/
theorem groundingCheck_spec :
    ∀ (summaries : List DocSummary) (query : String) (raw : List AICandidate) (r : AICandidate),
      r ∈ tryOnDeviceValidate summaries query raw →
      extractQuoted r.reason ≠ [] →
      ∃ t, refLookup (anonymousTabs summaries) r.ref = some t ∧
        ∃ q ∈ extractQuoted r.reason,
          5 ≤ (cleanQuoted q).length ∧ occursInTabFields t (cleanQuoted q) = true := by
  intro summaries query raw r hmem hq
  obtain ⟨t, hfind, hg⟩ := pass_grounding (mem_validate hmem)
  refine ⟨t, hfind, ?_⟩
  unfold groundingOk at hg
  rw [if_pos (by simpa [List.length_pos] using hq)] at hg
  obtain ⟨q, hqmem, hqp⟩ := List.any_eq_true.mp hg
  rw [Bool.and_eq_true, Bool.not_eq_true', decide_eq_false_iff_not, not_lt] at hqp
  exact ⟨q, hqmem, hqp.1, hqp.2⟩

/-- Witness for C1's amended theorem: the counterexample candidate is
accepted and indeed has a matching quoted substring
(`'ice cream recipes'` occurs in the title). -/
theorem groundingCheck_spec_witness :
    ∃ t, refLookup (anonymousTabs [cOneDoc]) cOneCand.ref = some t ∧
      ∃ q ∈ extractQuoted cOneCand.reason,
        5 ≤ (cleanQuoted q).length ∧ occursInTabFields t (cleanQuoted q) = true :=
  groundingCheck_spec [cOneDoc] "ice cream" [cOneCand] cOneCand (by decide) (by decide)

theorem grounding_false_pred {tabs : List AnonTab} {kws : List String} {r : AICandidate}
    (hg : ∀ t, groundingOk t r.reason = false) :
    firstPassAccept tabs kws r = false ∧ secondPassAccept tabs kws r = false := by
  constructor <;>
  · first
      | unfold firstPassAccept
      | unfold secondPassAccept
    cases hfind : refLookup tabs r.ref with
    | none => simp
    | some t => simp [hg t]

/-- C9: a semantic candidate whose reason contains at least one single-quoted
substring but whose quoted substrings all have cleaned length < 5 is
rejected: every quote is skipped by the length check, no match is ever
recorded, and the no-match branch excludes the candidate (the grounding
check does not pass vacuously in this case).  This holds in both validation
passes, for every document set, query, and raw model response. -/
theorem shortQuotes_rejected :
    ∀ (summaries : List DocSummary) (query : String) (raw : List AICandidate) (r : AICandidate),
      extractQuoted r.reason ≠ [] →
      (∀ q ∈ extractQuoted r.reason, (cleanQuoted q).length < 5) →
      r ∉ tryOnDeviceValidate summaries query raw := by
  intro summaries query raw r hq hshort hmem
  have hg : ∀ t, groundingOk t r.reason = false := by
    intro t
    unfold groundingOk
    rw [if_pos (by simpa [List.length_pos] using hq)]
    rw [Bool.eq_false_iff]
    intro hany
    obtain ⟨q, hqmem, hqp⟩ := List.any_eq_true.mp hany
    rw [Bool.and_eq_true, Bool.not_eq_true', decide_eq_false_iff_not, not_lt] at hqp
    exact absurd (hshort q hqmem) (by omega)
  rcases mem_validate hmem with hp | hp <;>
    [exact absurd hp (by simp [(grounding_false_pred hg).1]);
     exact absurd hp (by simp [(grounding_false_pred hg).2])]

/-- Witness for C9: a candidate quoting only the 3-character string
`'abc'` is not in the validated set, whatever its score. -/
theorem shortQuotes_rejected_witness :
    (⟨"tab1", 10, "see " ++ sqS ++ "abc" ++ sqS ++ " end"⟩ : AICandidate) ∉
      tryOnDeviceValidate [⟨1, "Some Tab", "", "", []⟩] "ice cream"
        [⟨"tab1", 10, "see " ++ sqS ++ "abc" ++ sqS ++ " end"⟩] :=
  shortQuotes_rejected [⟨1, "Some Tab", "", "", []⟩] "ice cream"
    [⟨"tab1", 10, "see " ++ sqS ++ "abc" ++ sqS ++ " end"⟩]
    ⟨"tab1", 10, "see " ++ sqS ++ "abc" ++ sqS ++ " end"⟩ (by decide) (by decide)

/-- C2: in the default hybrid mode, when the lexical scorer returns a
non-empty provisional id list and the semantic scorer later returns a
non-empty validated id list, the final active result set is exactly the
semantic id list in its order; ids present only in the lexical list are
dropped (replacement, not union). -/
theorem reconcilerReplacement_spec :
    ∀ (fallbackIds aiIds : List Nat), fallbackIds ≠ [] → aiIds ≠ [] →
      hybridFinalIds fallbackIds aiIds false false = aiIds ∧
      ∀ x ∈ fallbackIds, x ∉ aiIds → x ∉ hybridFinalIds fallbackIds aiIds false false := by
  intro fallbackIds aiIds hf ha
  have h : hybridFinalIds fallbackIds aiIds false false = aiIds := by
    unfold hybridFinalIds
    rw [if_neg (by simp), if_pos (List.length_pos.mpr hf), if_neg (by simp),
      if_pos (List.length_pos.mpr ha)]
  exact ⟨h, fun x _ hx => by rw [h]; exact hx⟩

/-- Witness for C2: lexical `[1, 2]` followed by semantic `[2, 3]` yields
exactly `[2, 3]`, and `1` is dropped from the active result set. -/
theorem reconcilerReplacement_spec_witness :
    hybridFinalIds [1, 2] [2, 3] false false = [2, 3] ∧
    1 ∉ hybridFinalIds [1, 2] [2, 3] false false :=
  ⟨(reconcilerReplacement_spec [1, 2] [2, 3] (by decide) (by decide)).1,
   (reconcilerReplacement_spec [1, 2] [2, 3] (by decide) (by decide)).2 1 (by decide) (by decide)⟩

theorem truncate500_length (s : String) : (truncate500 s).length ≤ 503 := by
  unfold truncate500
  split
  · next h =>
    rw [String.length_append]
    have h1 : (String.mk (s.data.take 500)).length = (s.data.take 500).length := rfl
    have h2 : ("..." : String).length = 3 := rfl
    rw [h1, h2, List.length_take]
    omega
  · next h =>
    omega

theorem aiSummary_shape (hasSession : Bool) (item : ExtractedItem) (raw : Option String)
    (parsed : Option ParsedResp) :
    (aiSummaryTags hasSession item raw parsed).1 = "" ∨
      ∃ s, (aiSummaryTags hasSession item raw parsed).1 = truncate500 s := by
  unfold aiSummaryTags
  split
  · cases raw with
    | none => exact Or.inl rfl
    | some rawStr =>
      cases parsed with
      | none => exact Or.inr ⟨trimStr rawStr, rfl⟩
      | some p =>
        by_cases hp : p.summary = ""
        · left
          simp [hp]
        · right
          exact ⟨p.summary, by simp [hp]⟩
  · exact Or.inl rfl

set_option maxRecDepth 4000 in
/-- C4 (counterexample): a parsed model summary of 501 characters is
truncated to 500 characters plus a 3-character ellipsis, so the produced
summary has length 503 > 500, violating the `≤ 500` contract as stated. -/
theorem summaryLength_counterexample :
    (summarizeOne true ⟨1, "t", "u", "x"⟩ (some "raw")
        (some ⟨String.mk (List.replicate 501 'a'), some []⟩)).summary.length = 503 ∧
    ¬ (summarizeOne true ⟨1, "t", "u", "x"⟩ (some "raw")
        (some ⟨String.mk (List.replicate 501 'a'), some []⟩)).summary.length ≤ 500 := by
  constructor
  · decide
  · decide

/-- C4 (amended): every summary string produced by the summarization step
(model-derived, plain-text, and fallback paths alike) has length at most
503: at most 500 characters of content plus, when truncation occurred, the
3-character ellipsis `"..."`. -/
theorem summaryLength_spec :
    ∀ (hasSession : Bool) (item : ExtractedItem) (raw : Option String)
      (parsed : Option ParsedResp),
      (summarizeOne hasSession item raw parsed).summary.length ≤ 503 := by
  intro hasSession item raw parsed
  unfold summarizeOne
  split
  · exact truncate500_length _
  · next hne =>
    rcases aiSummary_shape hasSession item raw parsed with h | ⟨s, h⟩
    · exact absurd h hne
    · simpa [h] using truncate500_length s

theorem generateFallbackTags_le_three (title url : String) :
    (generateFallbackTags title url).length ≤ 3 := by
  unfold generateFallbackTags
  rw [List.length_take]
  omega

theorem aggressiveLoop_abort_take (sums : List DocSummary) (words : List String)
    (minScore : Nat) (fullTextOf : Nat → String) (k : Nat) :
    ∀ (tabs : List BrowserTab) (i : Nat),
      aggressiveLoop sums words minScore fullTextOf (fun j => decide (k ≤ j)) tabs i =
        aggressiveLoop sums words minScore fullTextOf (fun _ => false) (tabs.take (k - i)) i := by
  intro tabs
  induction tabs with
  | nil => intro i; simp [aggressiveLoop]
  | cons tab rest ih =>
    intro i
    by_cases hik : k ≤ i
    · have hk0 : k - i = 0 := by omega
      rw [hk0]
      show aggressiveLoop sums words minScore fullTextOf (fun j => decide (k ≤ j))
          (tab :: rest) i = aggressiveLoop sums words minScore fullTextOf (fun _ => false) [] i
      unfold aggressiveLoop
      cases hfind : sums.find? (fun s => s.id == tab.id) with
      | none =>
        have := ih (i + 1)
        rw [Nat.sub_eq_zero_of_le (by omega)] at this
        exact this
      | some s => simp [hik]
    · have hk : k - i = (k - (i + 1)) + 1 := by omega
      rw [hk, List.take_succ_cons]
      unfold aggressiveLoop
      cases hfind : sums.find? (fun s => s.id == tab.id) with
      | none => exact ih (i + 1)
      | some s =>
        have hdec : (decide (k ≤ i)) = false := by simp; omega
        rw [hdec]
        simp only [Bool.false_eq_true, if_false, ih (i + 1)]

/-- C5 (counterexample): in aggressive mode a search cancelled mid-execution
returns the partial results accumulated before the cancellation to the
caller (here: cancelled at iteration 1, after tab 1 already matched, the
returned result is `[1]`, not the empty list), and the final status is the
zero-result-style `Found N tabs (searched all M tabs).` message — with `N
= 0` when cancellation struck before any match — rather than a
cancellation state. -/
theorem cancellation_counterexample :
    aggressiveSearch [⟨1, "Ice", ""⟩, ⟨2, "Other", ""⟩]
        [⟨1, "Ice Cream Recipes", "", "", []⟩, ⟨2, "Other Tab", "", "", []⟩]
        "ice cream" (fun _ => "") (fun i => decide (1 ≤ i)) = [1] ∧
    ([1] : List Nat) ≠ [] ∧
    aggressiveFinalStatus
        (aggressiveSearch [⟨1, "T", ""⟩] [⟨1, "Unrelated", "", "", []⟩] "ice cream"
          (fun _ => "") (fun _ => true))
        [⟨1, "T", ""⟩] = "Found 0 tabs (searched all 1 tabs)." :=
  ⟨by decide, by decide, by decide⟩

/-- C5 (amended): in the default hybrid mode, cancellation discards partial
results: if the signal is aborted when the provisional lexical result would
be returned, the caller receives the empty list whatever both scorers
produced.  In aggressive mode, however, cancellation at iteration `k` stops
the scan and the partial results accumulated so far are returned: the
result equals the uncancelled search over the first `k` tabs (and the final
status is the `Found N tab(s) (searched all M tabs).` message of
`aggressiveFinalStatus`, not a distinct cancellation state). -/
theorem cancellation_spec :
    (∀ (fallbackIds aiIds : List Nat) (b : Bool),
        hybridFinalIds fallbackIds aiIds true b = []) ∧
    (∀ (tabs : List BrowserTab) (sums : List DocSummary) (query : String)
        (fullTextOf : Nat → String) (k : Nat),
        aggressiveSearch tabs sums query fullTextOf (fun i => decide (k ≤ i)) =
          aggressiveSearch (tabs.take k) sums query fullTextOf (fun _ => false)) := by
  constructor
  · intro fallbackIds aiIds b
    unfold hybridFinalIds
    rw [if_pos rfl]
  · intro tabs sums query fullTextOf k
    unfold aggressiveSearch
    have h := aggressiveLoop_abort_take sums (extractKeywords query)
      (minScoreFor (extractKeywords query).length) fullTextOf k tabs 0
    rw [Nat.sub_zero] at h
    exact h

/-- C10: every summary record carries at most 3 tags: the model-derived tag
list is truncated to its first 3 entries (`slice(0, 3)`, line 1093) and the
heuristic fallback tag generator deduplicates and keeps at most 3 (line
1192), even though the prompt asks the model for 30 tags. -/
theorem summaryTags_spec :
    (∀ (hasSession : Bool) (item : ExtractedItem) (raw : Option String)
        (parsed : Option ParsedResp),
        (summarizeOne hasSession item raw parsed).tags.length ≤ 3) ∧
    (∀ (title url : String), (generateFallbackTags title url).length ≤ 3) := by
  refine ⟨?_, generateFallbackTags_le_three⟩
  intro hasSession item raw parsed
  unfold summarizeOne
  split
  · exact generateFallbackTags_le_three item.title item.url
  · show (aiSummaryTags hasSession item raw parsed).2.length ≤ 3
    unfold aiSummaryTags
    split
    · cases raw with
      | none => simp
      | some rawStr =>
        cases parsed with
        | none => simp
        | some p =>
          by_cases hp : p.summary = ""
          · simp [hp]
          · cases htags : p.tags with
            | none => simp [hp, htags]
            | some ts =>
              simp [hp, htags, List.length_take]
    · simp
